import Mathlib

/-!
Shallow embedding of the game / session logic of the Discord-Bot-2025
repository, together with proofs of the specified properties.

Each definition is a direct translation of a Python function or class from
the repository sources; the file is organised by source module:
  * `Hangman`   — `bot/helpers/hangman_game.py`
  * `TicTacToe` — the `TicTacToe` view in `bot/cogs/fun.py`
  * `Events`    — the RSVP buttons of `bot/cogs/events.py`
  * `Pomodoro`  — `bot/cogs/pomodoro.py`
  * `Script`    — the assign/unassign commands of `bot/cogs/script_session.py`
  * `WordAssoc` — the `associate` command handler of `bot/cogs/fun.py`
-/

namespace DiscordBot

namespace Hangman

/-- The `HANGMAN_PICS` list from `bot/helpers/hangman_game.py`: the seven
ASCII stages of the gallows (Python triple-quoted strings, rendered here
with explicit newlines). -/
def HANGMAN_PICS : List String :=
  ["\n     +---+\n         |\n         |\n         |\n        ===\n    ",
   "\n     +---+\n     O   |\n         |\n         |\n        ===\n    ",
   "\n     +---+\n     O   |\n     |   |\n         |\n        ===\n    ",
   "\n     +---+\n     O   |\n    /|   |\n         |\n        ===\n    ",
   "\n     +---+\n     O   |\n    /|\\  |\n         |\n        ===\n    ",
   "\n     +---+\n     O   |\n    /|\\  |\n    /    |\n        ===\n    ",
   "\n     +---+\n     O   |\n    /|\\  |\n    / \\  |\n        ===\n    "]

/-- The mutable state of `HangmanGame`
(`bot/helpers/hangman_game.py`, `__init__`).  The Python `attempts` field is
an unbounded integer (it is decremented without a guard), so it is an `Int`;
the guessed-letter `set` is a `Finset Char`; the `display` list of `"_"` /
letter strings is a `List Char`. -/
structure HangmanGame where
  word : List Char
  attempts : Int
  max_attempts : Int
  guessed : Finset Char
  display : List Char
  deriving DecidableEq

/-- `HangmanGame.__init__` for a given target word: 6 attempts,
no guesses, the display is one underscore per letter of the word. -/
def HangmanGame.start (word : List Char) : HangmanGame :=
  { word := word
    attempts := 6
    max_attempts := 6
    guessed := ∅
    display := word.map fun _ => '_' }

/-- `HangmanGame.guess`: returns the updated game together with the
`(bool, str)` result returned by the Python method.  A repeated letter is
rejected; a letter of the word is revealed at every position where it
occurs; otherwise `attempts` is decremented. -/
def HangmanGame.guess (g : HangmanGame) (letter : Char) :
    HangmanGame × Bool × String :=
  if letter ∈ g.guessed then
    (g, false, "already guessed")
  else
    let g1 := { g with guessed := insert letter g.guessed }
    if letter ∈ g.word then
      ({ g1 with
          display := List.zipWith
            (fun l d => if l = letter then letter else d) g.word g.display },
        true, "correct")
    else
      ({ g1 with attempts := g1.attempts - 1 }, false, "incorrect")

/-- `HangmanGame.is_won`: no underscore left in the display. -/
def HangmanGame.is_won (g : HangmanGame) : Bool := !(g.display.contains '_')

/-- `HangmanGame.is_lost`: the attempt counter has reached zero. -/
def HangmanGame.is_lost (g : HangmanGame) : Bool := g.attempts ≤ 0

/-- `HangmanGame.get_visual`: the Python code indexes
`HANGMAN_PICS[max_attempts - attempts]`; the embedding uses the fallible
lookup so that in-bounds access is a provable statement. -/
def HangmanGame.get_visual (g : HangmanGame) : Option String :=
  HANGMAN_PICS.get? (g.max_attempts - g.attempts).toNat

/-- Reachable game states when `guess` is only invoked on states that are
neither won nor lost, exactly as `HangmanSelect.callback` in
`bot/cogs/fun.py` guarantees (the view stops on win or loss). -/
inductive Reachable : HangmanGame → Prop
  | start (word : List Char) : Reachable (HangmanGame.start word)
  | step (g : HangmanGame) (c : Char) :
      Reachable g → g.is_won = false → g.is_lost = false →
      Reachable (g.guess c).1

/-- C1: guessing a letter of the word that was not guessed before returns
`(True, "correct")`, keeps `attempts`, adds the letter to `guessed`, and
rewrites the display to the letter at every index where the word has that
letter, leaving all other indices unchanged. -/
theorem guess_correct_reveals_all_instances (g : HangmanGame) (c : Char)
    (hw : c ∈ g.word) (hg : c ∉ g.guessed)
    (hlen : g.display.length = g.word.length) :
    (g.guess c).2 = (true, "correct") ∧
    (g.guess c).1.attempts = g.attempts ∧
    (g.guess c).1.guessed = insert c g.guessed ∧
    (g.guess c).1.display.length = g.word.length ∧
    ∀ i, i < g.word.length →
      (g.guess c).1.display.getD i '_' =
        if g.word.getD i '_' = c then c else g.display.getD i '_' := by
  simp only [HangmanGame.guess, if_neg hg, if_pos hw]
  refine ⟨trivial, trivial, trivial, by simp [hlen], ?_⟩
  intro i hi
  have hid : i < g.display.length := by omega
  have hzl : i < (List.zipWith
      (fun l d => if l = c then c else d) g.word g.display).length := by
    simp [hlen]; omega
  rw [List.getD_eq_getElem _ _ hzl, List.getElem_zipWith,
    List.getD_eq_getElem _ _ hi, List.getD_eq_getElem _ _ hid]

/-- Witness for C1 at a concrete game. -/
theorem guess_correct_reveals_all_instances_witness :
    (HangmanGame.guess ⟨['a', 'b', 'a'], 6, 6, ∅, ['_', '_', '_']⟩ 'a').2 =
      (true, "correct") ∧
    (HangmanGame.guess ⟨['a', 'b', 'a'], 6, 6, ∅, ['_', '_', '_']⟩ 'a').1.display.getD 0 '_' =
      'a' := by
  have h := guess_correct_reveals_all_instances
    ⟨['a', 'b', 'a'], 6, 6, ∅, ['_', '_', '_']⟩ 'a'
    (by decide) (by decide) (by decide)
  exact ⟨h.1, by simpa using h.2.2.2.2 0 (by decide)⟩

/-- C9: a repeated guess returns `(False, "already guessed")` and changes
nothing, and a fresh guess of a letter not in the word decrements
`attempts` by one, records the letter, and keeps the display. -/
theorem guess_repeat_and_incorrect (g : HangmanGame) (c : Char) :
    (c ∈ g.guessed → g.guess c = (g, false, "already guessed")) ∧
    (c ∉ g.guessed → c ∉ g.word →
      (g.guess c).1.attempts = g.attempts - 1 ∧
      (g.guess c).1.guessed = insert c g.guessed ∧
      (g.guess c).1.display = g.display ∧
      (g.guess c).2 = (false, "incorrect")) := by
  constructor
  · intro hc
    simp [HangmanGame.guess, hc]
  · intro hc hw
    simp [HangmanGame.guess, hc, hw]

/-- Witness for C9 at concrete games. -/
theorem guess_repeat_and_incorrect_witness :
    HangmanGame.guess ⟨['a', 'b'], 6, 6, {'c'}, ['_', '_']⟩ 'c' =
      (⟨['a', 'b'], 6, 6, {'c'}, ['_', '_']⟩, false, "already guessed") ∧
    (HangmanGame.guess ⟨['a', 'b'], 6, 6, ∅, ['_', '_']⟩ 'z').1.attempts = 5 := by
  constructor
  · exact (guess_repeat_and_incorrect ⟨['a', 'b'], 6, 6, {'c'}, ['_', '_']⟩ 'c').1
      (by decide)
  · have h := (guess_repeat_and_incorrect ⟨['a', 'b'], 6, 6, ∅, ['_', '_']⟩ 'z').2
      (by decide) (by decide)
    simpa using h.1

/-- C10: in every game state reachable while the view is still live (the
view stops the game on win or loss, so `guess` only runs on non-terminal
states), `attempts` stays between 0 and 6, so `max_attempts - attempts` is
a valid index into the 7-element `HANGMAN_PICS` list and `get_visual`
succeeds. -/
theorem reachable_attempts_in_range (g : HangmanGame) (h : Reachable g) :
    0 ≤ g.attempts ∧ g.attempts ≤ 6 ∧ g.max_attempts = 6 ∧
    (g.max_attempts - g.attempts).toNat < HANGMAN_PICS.length ∧
    g.get_visual.isSome = true := by
  have hlen : HANGMAN_PICS.length = 7 := by rfl
  have key : 0 ≤ g.attempts ∧ g.attempts ≤ 6 ∧ g.max_attempts = 6 := by
    induction h with
    | start w =>
      exact ⟨by simp [HangmanGame.start], by simp [HangmanGame.start], rfl⟩
    | step g c hg hw hl ih =>
      obtain ⟨h0, h6, hmax⟩ := ih
      have hlost : ¬ g.attempts ≤ 0 := by
        simpa [HangmanGame.is_lost] using hl
      unfold HangmanGame.guess
      by_cases hc : c ∈ g.guessed
      · simpa [hc] using ⟨h0, h6, hmax⟩
      · by_cases hcw : c ∈ g.word
        · simpa [hc, hcw] using ⟨h0, h6, hmax⟩
        · simp only [hc, hcw, if_neg, if_pos]
          refine ⟨by simp; omega, by simp; omega, by simpa using hmax⟩
  obtain ⟨h0, h6, hmax⟩ := key
  have hidx : (g.max_attempts - g.attempts).toNat < HANGMAN_PICS.length := by
    rw [hlen, hmax]; omega
  refine ⟨h0, h6, hmax, hidx, ?_⟩
  simp only [HangmanGame.get_visual, List.get?_eq_getElem?]
  rw [List.getElem?_eq_getElem hidx]
  rfl

/-- Witness for C10 at the freshly started game on the word `ab`. -/
theorem reachable_attempts_in_range_witness :
    0 ≤ (HangmanGame.start ['a', 'b']).attempts ∧
    (HangmanGame.start ['a', 'b']).get_visual.isSome = true := by
  have h := reachable_attempts_in_range (HangmanGame.start ['a', 'b'])
    (Reachable.start ['a', 'b'])
  exact ⟨h.1, h.2.2.2.2⟩

end Hangman

namespace TicTacToe

/-- `self.symbols = ["❌", "⭕"]` from `TicTacToe.__init__` in
`bot/cogs/fun.py`. -/
def symbols : List String := ["❌", "⭕"]

/-- The `win_combos` list of `TicTacToe.check_win`. -/
def win_combos : List (Nat × Nat × Nat) :=
  [(0, 1, 2), (3, 4, 5), (6, 7, 8),
   (0, 3, 6), (1, 4, 7), (2, 5, 8),
   (0, 4, 8), (2, 4, 6)]

/-- `TicTacToe.check_win`: the Python chained comparison
`b[a] == b[b_idx] == b[c] == symbol` over each winning combination.  Board
cells are `None` or a symbol string, hence `Option String`. -/
def check_win (board : List (Option String)) (symbol : String) : Bool :=
  win_combos.any fun t =>
    board.getD t.1 none == board.getD t.2.1 none &&
    (board.getD t.2.1 none == board.getD t.2.2 none &&
     board.getD t.2.2 none == some symbol)

/-- The game state carried by the `TicTacToe` view: 9-cell board, move
count, current player index, terminal flag, and the winning player's index
(the Python `winner` member object, represented by its index in
`players`). -/
structure Game where
  board : List (Option String)
  move_count : Nat
  current_player_index : Nat
  game_over : Bool
  winner_index : Option Nat
  deriving DecidableEq

/-- `TicTacToe.__init__`: empty board, zero moves, player 0 to move. -/
def Game.init : Game :=
  { board := List.replicate 9 none
    move_count := 0
    current_player_index := 0
    game_over := false
    winner_index := none }

/-- `TicTacToeButton.callback` after its guards pass: place the current
player's symbol, bump the move count, then either end the game on a win,
end it as a draw at nine moves, or hand the turn to the other player
(`1 - current_player_index`). -/
def Game.applyMove (g : Game) (p : Nat) : Game :=
  if check_win (g.board.set p (some (symbols.getD g.current_player_index "")))
      (symbols.getD g.current_player_index "") then
    { board := g.board.set p (some (symbols.getD g.current_player_index ""))
      move_count := g.move_count + 1
      current_player_index := g.current_player_index
      game_over := true
      winner_index := some g.current_player_index }
  else if 9 ≤ g.move_count + 1 then
    { board := g.board.set p (some (symbols.getD g.current_player_index ""))
      move_count := g.move_count + 1
      current_player_index := g.current_player_index
      game_over := true
      winner_index := none }
  else
    { board := g.board.set p (some (symbols.getD g.current_player_index ""))
      move_count := g.move_count + 1
      current_player_index := 1 - g.current_player_index
      game_over := false
      winner_index := none }

/-- Game states reachable by valid moves: the callback rejects a move on a
taken cell, and the buttons are disabled once the game is over, so a move
happens only on a live game at an empty in-range cell. -/
inductive GReach : Game → Prop
  | init : GReach Game.init
  | move (g : Game) (p : Nat) :
      GReach g → g.game_over = false → p < 9 →
      g.board.getD p none = none → GReach (g.applyMove p)

/-- C2: on a 9-cell board, `check_win symbol` holds exactly when the symbol
occupies all three cells of one of the eight winning lines (three rows,
three columns, two diagonals). -/
theorem check_win_iff_line (board : List (Option String)) (s : String)
    (_h : board.length = 9) :
    check_win board s = true ↔
      ((board.getD 0 none = some s ∧ board.getD 1 none = some s ∧
          board.getD 2 none = some s) ∨
       (board.getD 3 none = some s ∧ board.getD 4 none = some s ∧
          board.getD 5 none = some s) ∨
       (board.getD 6 none = some s ∧ board.getD 7 none = some s ∧
          board.getD 8 none = some s) ∨
       (board.getD 0 none = some s ∧ board.getD 3 none = some s ∧
          board.getD 6 none = some s) ∨
       (board.getD 1 none = some s ∧ board.getD 4 none = some s ∧
          board.getD 7 none = some s) ∨
       (board.getD 2 none = some s ∧ board.getD 5 none = some s ∧
          board.getD 8 none = some s) ∨
       (board.getD 0 none = some s ∧ board.getD 4 none = some s ∧
          board.getD 8 none = some s) ∨
       (board.getD 2 none = some s ∧ board.getD 4 none = some s ∧
          board.getD 6 none = some s)) := by
  have chain : ∀ x y z : Option String,
      (x = y ∧ y = z ∧ z = some s) ↔
      (x = some s ∧ y = some s ∧ z = some s) := by
    intro x y z
    constructor
    · rintro ⟨h1, h2, h3⟩
      subst h1; subst h2; exact ⟨h3, h3, h3⟩
    · rintro ⟨h1, h2, h3⟩
      exact ⟨by rw [h1, h2], by rw [h2, h3], h3⟩
  simp only [check_win, win_combos, List.any_cons, List.any_nil,
    Bool.or_eq_true, Bool.and_eq_true, beq_iff_eq, Bool.or_false,
    and_assoc]
  rw [chain, chain, chain, chain, chain, chain, chain, chain]

/-- Witness for C2 on the board where ❌ fills the top row. -/
theorem check_win_iff_line_witness :
    check_win
      [some "❌", some "❌", some "❌",
       none, some "⭕", none, none, some "⭕", none] "❌" = true := by
  have h := check_win_iff_line
    [some "❌", some "❌", some "❌",
     none, some "⭕", none, none, some "⭕", none] "❌" (by decide)
  exact h.mpr (Or.inl (by exact ⟨rfl, rfl, rfl⟩))

/-- The number of occupied cells of a board. -/
def filled (b : List (Option String)) : Nat := b.countP fun o => o.isSome

theorem filled_set_of_none (l : List (Option String)) (p : Nat) (x : String) :
    p < l.length → l.getD p none = none →
    filled (l.set p (some x)) = filled l + 1 := by
  simp only [filled]
  induction l generalizing p with
  | nil => intro h h2; simp at h
  | cons a t ih =>
    intro hp hnone
    cases p with
    | zero =>
      rw [List.getD_cons_zero] at hnone
      subst hnone
      simp [List.countP_cons]
    | succ n =>
      rw [List.getD_cons_succ] at hnone
      have := ih n (by simpa using hp) hnone
      simp only [List.set, List.countP_cons, this]
      omega

/-- C6: in every state reachable by valid moves, the move count equals the
number of occupied cells and never exceeds 9, the player index stays in
0/1; moreover a valid move from such a state flips the player index
exactly when the game is not over afterwards, and ends in a draw exactly
when the move count reaches 9 without the mover's symbol winning. -/
theorem reachable_game_invariant (g : Game) (h : GReach g) :
    (g.board.length = 9 ∧ g.move_count = filled g.board ∧
     g.move_count ≤ 9 ∧ g.current_player_index ≤ 1) ∧
    ∀ p, g.game_over = false → p < 9 → g.board.getD p none = none →
      ((g.applyMove p).game_over = false →
        (g.applyMove p).current_player_index = 1 - g.current_player_index ∧
        (g.applyMove p).current_player_index ≠ g.current_player_index) ∧
      ((g.applyMove p).game_over = true ∧
          (g.applyMove p).winner_index = none ↔
        (g.applyMove p).move_count = 9 ∧
        check_win (g.applyMove p).board
          (symbols.getD g.current_player_index "") = false) := by
  have step : ∀ g' : Game, ∀ p : Nat,
      g'.board.length = 9 → g'.move_count = filled g'.board →
      g'.current_player_index ≤ 1 → p < 9 → g'.board.getD p none = none →
      (g'.applyMove p).board.length = 9 ∧
      (g'.applyMove p).move_count = filled (g'.applyMove p).board ∧
      (g'.applyMove p).move_count ≤ 9 ∧
      (g'.applyMove p).current_player_index ≤ 1 ∧
      ((g'.applyMove p).game_over = false →
        (g'.applyMove p).current_player_index = 1 - g'.current_player_index ∧
        (g'.applyMove p).current_player_index ≠ g'.current_player_index) ∧
      ((g'.applyMove p).game_over = true ∧
          (g'.applyMove p).winner_index = none ↔
        (g'.applyMove p).move_count = 9 ∧
        check_win (g'.applyMove p).board
          (symbols.getD g'.current_player_index "") = false) := by
    intro g' p hlen hmc hidx hp hcell
    have hplen : p < g'.board.length := by omega
    unfold Game.applyMove
    set sym := symbols.getD g'.current_player_index "" with hsym
    set b := g'.board.set p (some sym) with hb
    have hfill : filled b = filled g'.board + 1 :=
      filled_set_of_none g'.board p sym hplen hcell
    have hsetlen : b.length = 9 := by rw [hb]; simp [hlen]
    have hfle : filled b ≤ 9 := by
      have h9 := List.countP_le_length
        (p := fun o : Option String => o.isSome) (l := b)
      rw [hsetlen] at h9
      exact h9
    by_cases hwin : check_win b sym = true
    · rw [if_pos hwin]
      dsimp only
      refine ⟨hsetlen, ?_, by omega, hidx, ?_, ?_⟩
      · show g'.move_count + 1 = filled b
        omega
      · intro hcontra
        exact absurd hcontra (by simp)
      · constructor
        · rintro ⟨-, hcontra⟩
          exact absurd hcontra (by simp)
        · rintro ⟨-, hfalse⟩
          rw [hwin] at hfalse
          exact absurd hfalse (by simp)
    · have hbfalse : check_win b sym = false := by
        simpa using hwin
      rw [if_neg hwin]
      by_cases hnine : 9 ≤ g'.move_count + 1
      · rw [if_pos hnine]
        dsimp only
        have hm9 : g'.move_count + 1 = 9 := by omega
        refine ⟨hsetlen, ?_, by omega, hidx, ?_, ?_⟩
        · show g'.move_count + 1 = filled b
          omega
        · intro hcontra
          exact absurd hcontra (by simp)
        · constructor
          · rintro ⟨-, -⟩
            exact ⟨hm9, hbfalse⟩
          · rintro ⟨-, -⟩
            exact ⟨rfl, rfl⟩
      · rw [if_neg hnine]
        dsimp only
        refine ⟨hsetlen, ?_, by omega, by omega, ?_, ?_⟩
        · show g'.move_count + 1 = filled b
          omega
        · intro _
          exact ⟨rfl, by omega⟩
        · constructor
          · rintro ⟨hcontra, -⟩
            exact absurd hcontra (by simp)
          · rintro ⟨h9, -⟩
            exact absurd h9 (by omega)
  have inv : g.board.length = 9 ∧ g.move_count = filled g.board ∧
      g.move_count ≤ 9 ∧ g.current_player_index ≤ 1 := by
    induction h with
    | init => refine ⟨by simp [Game.init], by simp [Game.init, filled], by simp [Game.init], by simp [Game.init]⟩
    | move g' p hr hover hp hcell ih =>
      obtain ⟨h1, h2, h3, h4⟩ := ih
      obtain ⟨a1, a2, a3, a4, _, _⟩ := step g' p h1 h2 h4 hp hcell
      exact ⟨a1, a2, a3, a4⟩
  refine ⟨inv, ?_⟩
  intro p hover hp hcell
  obtain ⟨h1, h2, h3, h4⟩ := inv
  obtain ⟨_, _, _, _, b1, b2⟩ := step g p h1 h2 h4 hp hcell
  exact ⟨b1, b2⟩

/-- Witness for C6 at the initial game state. -/
theorem reachable_game_invariant_witness :
    Game.init.move_count = filled Game.init.board ∧
    Game.init.move_count ≤ 9 := by
  have h := reachable_game_invariant Game.init GReach.init
  exact ⟨h.1.2.1, h.1.2.2.1⟩

end TicTacToe

namespace Timeouts

/-- `FunCog.trivia` in `bot/cogs/fun.py`:
`self.bot.wait_for('message', check=check, timeout=30)`. -/
def trivia_answer_timeout_seconds : Nat := 30

/-- `HangmanView.__init__` in `bot/cogs/fun.py`:
`super().__init__(timeout=90)`. -/
def hangman_view_timeout_seconds : Nat := 90

/-- `TicTacToe.__init__` in `bot/cogs/fun.py`:
`super().__init__(timeout=300)`. -/
def tictactoe_view_timeout_seconds : Nat := 300

/-- C4: the trivia answer window is exactly 30 seconds, the hangman view
timeout is exactly 90 seconds, the tic-tac-toe view timeout is exactly
300 seconds, and both game-view timeouts lie in the 90–300 second
range. -/
theorem timeout_limits_as_specified :
    trivia_answer_timeout_seconds = 30 ∧
    hangman_view_timeout_seconds = 90 ∧
    tictactoe_view_timeout_seconds = 300 ∧
    90 ≤ hangman_view_timeout_seconds ∧
    hangman_view_timeout_seconds ≤ 300 ∧
    90 ≤ tictactoe_view_timeout_seconds ∧
    tictactoe_view_timeout_seconds ≤ 300 := by
  decide

end Timeouts

namespace Events

/-- The three RSVP lists of `EventData` (`bot/cogs/events.py`): Python
lists of user ids, in insertion order. -/
structure EventData where
  participants : List Nat
  maybe_participants : List Nat
  not_attending : List Nat
  deriving DecidableEq

/-- `EventData.__init__`: all three RSVP lists start empty. -/
def EventData.init : EventData := ⟨[], [], []⟩

/-- Python `list.remove(x)` guarded by `if x in lst`: remove the first
occurrence of `x` when present (exactly `List.erase`, which is the
identity when `x` is absent). -/
def removeIfPresent (x : Nat) (l : List Nat) : List Nat :=
  if x ∈ l then l.erase x else l

/-- The `if user_id not in lst: lst.append(user_id)` pattern of the RSVP
buttons: append unless already present. -/
def addIfAbsent (x : Nat) (l : List Nat) : List Nat :=
  if x ∈ l then l else l ++ [x]

/-- `EventView.attending_button`: drop the user from the other two lists,
then append to `participants` unless already there. -/
def pressAttending (u : Nat) (e : EventData) : EventData :=
  { participants := addIfAbsent u e.participants
    maybe_participants := removeIfPresent u e.maybe_participants
    not_attending := removeIfPresent u e.not_attending }

/-- `EventView.maybe_button`. -/
def pressMaybe (u : Nat) (e : EventData) : EventData :=
  { participants := removeIfPresent u e.participants
    maybe_participants := addIfAbsent u e.maybe_participants
    not_attending := removeIfPresent u e.not_attending }

/-- `EventView.not_attending_button`. -/
def pressNotAttending (u : Nat) (e : EventData) : EventData :=
  { participants := removeIfPresent u e.participants
    maybe_participants := removeIfPresent u e.maybe_participants
    not_attending := addIfAbsent u e.not_attending }

/-- The three RSVP buttons of `EventView`. -/
inductive Press
  | attending
  | maybe
  | notAttending
  deriving DecidableEq

/-- Dispatch one button press. -/
def applyPress : Press → Nat → EventData → EventData
  | Press.attending => pressAttending
  | Press.maybe => pressMaybe
  | Press.notAttending => pressNotAttending

/-- Event states reachable from a newly created event by any sequence of
button presses by any users. -/
inductive EReach : EventData → Prop
  | init : EReach EventData.init
  | step (e : EventData) (b : Press) (u : Nat) :
      EReach e → EReach (applyPress b u e)

theorem nodup_removeIfPresent (u : Nat) (l : List Nat) (h : l.Nodup) :
    (removeIfPresent u l).Nodup := by
  unfold removeIfPresent
  by_cases hm : u ∈ l
  · rw [if_pos hm]; exact h.erase u
  · rw [if_neg hm]; exact h

theorem not_mem_removeIfPresent (u : Nat) (l : List Nat) (h : l.Nodup) :
    u ∉ removeIfPresent u l := by
  unfold removeIfPresent
  by_cases hm : u ∈ l
  · rw [if_pos hm]; exact h.not_mem_erase
  · rw [if_neg hm]; exact hm

theorem mem_of_mem_removeIfPresent (u x : Nat) (l : List Nat)
    (h : x ∈ removeIfPresent u l) : x ∈ l := by
  unfold removeIfPresent at h
  by_cases hm : u ∈ l
  · rw [if_pos hm] at h; exact List.mem_of_mem_erase h
  · rw [if_neg hm] at h; exact h

theorem nodup_addIfAbsent (u : Nat) (l : List Nat) (h : l.Nodup) :
    (addIfAbsent u l).Nodup := by
  unfold addIfAbsent
  by_cases hm : u ∈ l
  · rw [if_pos hm]; exact h
  · rw [if_neg hm]
    rw [List.nodup_append]
    refine ⟨h, List.nodup_singleton u, ?_⟩
    intro a ha hau
    rw [List.mem_singleton] at hau
    subst hau
    exact hm ha

theorem mem_addIfAbsent_self (u : Nat) (l : List Nat) :
    u ∈ addIfAbsent u l := by
  unfold addIfAbsent
  by_cases hm : u ∈ l
  · rw [if_pos hm]; exact hm
  · rw [if_neg hm]; simp

theorem mem_addIfAbsent_elim (u x : Nat) (l : List Nat)
    (h : x ∈ addIfAbsent u l) : x ∈ l ∨ x = u := by
  unfold addIfAbsent at h
  by_cases hm : u ∈ l
  · rw [if_pos hm] at h; exact Or.inl h
  · rw [if_neg hm] at h
    rcases List.mem_append.mp h with h1 | h1
    · exact Or.inl h1
    · exact Or.inr (List.mem_singleton.mp h1)

/-- The effect of one button press, abstracted over which list the press
adds to (`a`) and which two it removes from (`b`, `c`): the no-duplicate
and disjointness invariants are preserved and the presser ends up exactly
in `a`. -/
theorem move_user_invariant (u : Nat) (a b c : List Nat)
    (ha : a.Nodup) (hb : b.Nodup) (hc : c.Nodup)
    (hab : ∀ x, x ∈ a → x ∉ b) (hac : ∀ x, x ∈ a → x ∉ c)
    (hbc : ∀ x, x ∈ b → x ∉ c) :
    (addIfAbsent u a).Nodup ∧ (removeIfPresent u b).Nodup ∧
    (removeIfPresent u c).Nodup ∧
    (∀ x, x ∈ addIfAbsent u a → x ∉ removeIfPresent u b) ∧
    (∀ x, x ∈ addIfAbsent u a → x ∉ removeIfPresent u c) ∧
    (∀ x, x ∈ removeIfPresent u b → x ∉ removeIfPresent u c) ∧
    u ∈ addIfAbsent u a ∧ u ∉ removeIfPresent u b ∧
    u ∉ removeIfPresent u c := by
  refine ⟨nodup_addIfAbsent u a ha, nodup_removeIfPresent u b hb,
    nodup_removeIfPresent u c hc, ?_, ?_, ?_,
    mem_addIfAbsent_self u a, not_mem_removeIfPresent u b hb,
    not_mem_removeIfPresent u c hc⟩
  · intro x hx hxb
    rcases mem_addIfAbsent_elim u x a hx with h1 | h1
    · exact hab x h1 (mem_of_mem_removeIfPresent u x b hxb)
    · subst h1
      exact not_mem_removeIfPresent x b hb hxb
  · intro x hx hxc
    rcases mem_addIfAbsent_elim u x a hx with h1 | h1
    · exact hac x h1 (mem_of_mem_removeIfPresent u x c hxc)
    · subst h1
      exact not_mem_removeIfPresent x c hc hxc
  · intro x hx hxc
    exact hbc x (mem_of_mem_removeIfPresent u x b hx)
      (mem_of_mem_removeIfPresent u x c hxc)

/-- C3: from a new event, any sequence of RSVP button presses keeps the
three lists duplicate-free and pairwise disjoint, and each press leaves
the pressing user in exactly the list of the pressed button. -/
theorem rsvp_lists_disjoint_and_exclusive (e : EventData) (h : EReach e) :
    (e.participants.Nodup ∧ e.maybe_participants.Nodup ∧
     e.not_attending.Nodup ∧
     (∀ x, x ∈ e.participants → x ∉ e.maybe_participants) ∧
     (∀ x, x ∈ e.participants → x ∉ e.not_attending) ∧
     (∀ x, x ∈ e.maybe_participants → x ∉ e.not_attending)) ∧
    ∀ u,
      (u ∈ (pressAttending u e).participants ∧
       u ∉ (pressAttending u e).maybe_participants ∧
       u ∉ (pressAttending u e).not_attending) ∧
      (u ∉ (pressMaybe u e).participants ∧
       u ∈ (pressMaybe u e).maybe_participants ∧
       u ∉ (pressMaybe u e).not_attending) ∧
      (u ∉ (pressNotAttending u e).participants ∧
       u ∉ (pressNotAttending u e).maybe_participants ∧
       u ∈ (pressNotAttending u e).not_attending) := by
  have inv : e.participants.Nodup ∧ e.maybe_participants.Nodup ∧
      e.not_attending.Nodup ∧
      (∀ x, x ∈ e.participants → x ∉ e.maybe_participants) ∧
      (∀ x, x ∈ e.participants → x ∉ e.not_attending) ∧
      (∀ x, x ∈ e.maybe_participants → x ∉ e.not_attending) := by
    induction h with
    | init =>
      refine ⟨List.nodup_nil, List.nodup_nil, List.nodup_nil, ?_, ?_, ?_⟩
        <;> intro x hx <;> simp [EventData.init] at hx
    | step e' b u hr ih =>
      obtain ⟨h1, h2, h3, h12, h13, h23⟩ := ih
      cases b with
      | attending =>
        obtain ⟨a1, a2, a3, a12, a13, a23, -, -, -⟩ :=
          move_user_invariant u e'.participants e'.maybe_participants
            e'.not_attending h1 h2 h3 h12 h13 h23
        exact ⟨a1, a2, a3, a12, a13, a23⟩
      | maybe =>
        obtain ⟨a1, a2, a3, a12, a13, a23, -, -, -⟩ :=
          move_user_invariant u e'.maybe_participants e'.participants
            e'.not_attending h2 h1 h3 (fun x hx hy => h12 x hy hx) h23 h13
        exact ⟨a2, a1, a3, fun x hx hy => a12 x hy hx, a23, a13⟩
      | notAttending =>
        obtain ⟨a1, a2, a3, a12, a13, a23, -, -, -⟩ :=
          move_user_invariant u e'.not_attending e'.participants
            e'.maybe_participants h3 h1 h2
            (fun x hx hy => h13 x hy hx) (fun x hx hy => h23 x hy hx) h12
        exact ⟨a2, a3, a1, a23, fun x hx hy => a12 x hy hx,
          fun x hx hy => a13 x hy hx⟩
  refine ⟨inv, ?_⟩
  intro u
  obtain ⟨h1, h2, h3, h12, h13, h23⟩ := inv
  refine ⟨⟨mem_addIfAbsent_self u e.participants,
      not_mem_removeIfPresent u e.maybe_participants h2,
      not_mem_removeIfPresent u e.not_attending h3⟩,
    ⟨not_mem_removeIfPresent u e.participants h1,
      mem_addIfAbsent_self u e.maybe_participants,
      not_mem_removeIfPresent u e.not_attending h3⟩,
    ⟨not_mem_removeIfPresent u e.participants h1,
      not_mem_removeIfPresent u e.maybe_participants h2,
      mem_addIfAbsent_self u e.not_attending⟩⟩

/-- Witness for C3 at the fresh event state. -/
theorem rsvp_lists_disjoint_and_exclusive_witness :
    EventData.init.participants.Nodup ∧
    7 ∈ (pressAttending 7 EventData.init).participants ∧
    7 ∉ (pressAttending 7 EventData.init).maybe_participants := by
  have h := rsvp_lists_disjoint_and_exclusive EventData.init EReach.init
  exact ⟨h.1.1, (h.2 7).1.1, (h.2 7).1.2.1⟩

end Events

namespace Pomodoro

/-- `PomodoroSession.__init__` fields (`bot/cogs/pomodoro.py`): focus and
break lengths in seconds, cycle count, participant user ids, stop flag. -/
structure PomodoroSession where
  focus : Nat
  brk : Nat
  cycles : Nat
  participants : List Nat
  stopped : Bool
  deriving DecidableEq

/-- The module-level `_active_pomodoros` dict, keyed by channel id. -/
def Table : Type := Nat → Option PomodoroSession

/-- The guard and registration of `PomodoroCog.pomodoro_prefix` (the slash
command performs the same check): if the channel already has an entry,
reply "already running" (`false`) and leave the table alone; otherwise
store the new session under the channel id (`true`). -/
def pomodoroCommand (ch : Nat) (s : PomodoroSession) (tbl : Table) :
    Table × Bool :=
  if (tbl ch).isSome then (tbl, false)
  else (fun c => if c = ch then some s else tbl c, true)

/-- How `PomodoroSession.run` can finish.  The join phase either finds no
participants (early `return` before the final `pop`), or the cycle loop
runs to completion or breaks on the stop flag; in the last two cases
control always reaches `_active_pomodoros.pop(self.channel.id, None)`. -/
inductive RunOutcome
  | noParticipants
  | stoppedEarly
  | completed
  deriving DecidableEq

/-- The effect of `PomodoroSession.run` on `_active_pomodoros`: the
`pop(channel.id, None)` at the end of `run` executes unless the
no-participant early return was taken. -/
def runTableEffect (o : RunOutcome) (ch : Nat) (tbl : Table) : Table :=
  match o with
  | RunOutcome.noParticipants => tbl
  | _ => fun c => if c = ch then none else tbl c

/-- C5: at most one pomodoro session per channel — invoking the command on
a busy channel changes nothing and only produces the "already running"
reply; otherwise exactly one session is registered under the channel id;
and `run` erases that entry whenever the session completes all cycles or
is stopped. -/
theorem pomodoro_one_session_per_channel (ch : Nat) (s : PomodoroSession)
    (tbl : Table) :
    ((tbl ch).isSome = true → pomodoroCommand ch s tbl = (tbl, false)) ∧
    ((tbl ch).isSome = false →
      (pomodoroCommand ch s tbl).1 ch = some s ∧
      (pomodoroCommand ch s tbl).2 = true ∧
      ∀ c, c ≠ ch → (pomodoroCommand ch s tbl).1 c = tbl c) ∧
    (∀ o : RunOutcome,
      o = RunOutcome.completed ∨ o = RunOutcome.stoppedEarly →
      runTableEffect o ch tbl ch = none ∧
      ∀ c, c ≠ ch → runTableEffect o ch tbl c = tbl c) := by
  refine ⟨?_, ?_, ?_⟩
  · intro h
    simp [pomodoroCommand, h]
  · intro h
    rw [Bool.eq_false_iff] at h
    refine ⟨by simp [pomodoroCommand, h], by simp [pomodoroCommand, h], ?_⟩
    intro c hc
    simp [pomodoroCommand, h, hc]
  · intro o ho
    rcases ho with ho | ho <;> subst ho <;>
      exact ⟨by simp [runTableEffect], fun c hc => by simp [runTableEffect, hc]⟩

/-- Witness for C5 on the empty table and channel 5. -/
theorem pomodoro_one_session_per_channel_witness :
    (pomodoroCommand 5 ⟨1500, 300, 4, [], false⟩ (fun _ => none)).1 5 =
      some ⟨1500, 300, 4, [], false⟩ ∧
    runTableEffect RunOutcome.completed 5
      (fun c => if c = 5 then some ⟨1500, 300, 4, [], false⟩ else none) 5 =
      none := by
  constructor
  · exact ((pomodoro_one_session_per_channel 5 ⟨1500, 300, 4, [], false⟩
      (fun _ => none)).2.1 rfl).1
  · exact ((pomodoro_one_session_per_channel 5 ⟨1500, 300, 4, [], false⟩
      (fun c => if c = 5 then some ⟨1500, 300, 4, [], false⟩ else none)).2.2
      RunOutcome.completed (Or.inl rfl)).1

end Pomodoro

namespace Script

/-- One entry of the `characters` dict of a script session
(`bot/cogs/script_session.py`): description text and the id of the user
the character is assigned to (`None` when free). -/
structure Character where
  description : String
  assigned_to : Option Nat
  deriving DecidableEq

/-- The part of a script session touched by assign/unassign: the title and
the insertion-ordered `characters` dict, embedded as an association
list. -/
structure ScriptSession where
  title : String
  characters : List (String × Character)
  deriving DecidableEq

/-- The case-insensitive lookup loop of `assign_character` /
`unassign_character` compares `char.lower() == character_name.lower()`.
Python's `str.lower()` folds the full Unicode range, which Lean's
ASCII-only `Char.toLower` does not model, so the fold is an abstract
parameter `pyLower` of the embedding; every statement below holds for
every folding function, in particular for Python's.  `findChar` returns
the first dict entry whose key folds to the same string as the requested
name (the loop `break`s on the first hit). -/
def findChar (pyLower : String → String)
    (chars : List (String × Character)) (name : String) :
    Option (String × Character) :=
  match chars with
  | [] => none
  | (k, c) :: rest =>
    if pyLower k = pyLower name then some (k, c)
    else findChar pyLower rest name

/-- Dict lookup by exact key (first matching entry). -/
def getChar (chars : List (String × Character)) (k : String) :
    Option Character :=
  match chars with
  | [] => none
  | (k', c) :: rest => if k' = k then some c else getChar rest k

/-- `session["characters"][key]["assigned_to"] = v`: rewrite the
`assigned_to` field of the entries carrying key `k` (a dict holds one such
entry), leaving every other entry untouched. -/
def setAssigned : List (String × Character) → String → Option Nat →
    List (String × Character)
  | [], _, _ => []
  | (k', c) :: rest, k, v =>
    (k', if k' = k then { c with assigned_to := v } else c) ::
      setAssigned rest k v

/-- Python truthiness of the `assigned_to` field (`None` and `0` are
falsy). -/
def truthyAssigned : Option Nat → Bool
  | none => false
  | some n => n != 0

/-- The reply sent by the assign command. -/
inductive AssignReply
  | noSession
  | charNotFound
  | alreadyAssigned (current : Nat)
  | assigned
  deriving DecidableEq

/-- The reply sent by the unassign command. -/
inductive UnassignReply
  | noSession
  | charNotFound
  | notAssigned
  | unassigned
  deriving DecidableEq

/-- `ScriptSessionCog.assign_character`: on any failure the session table
is returned untouched together with the error reply; on success the found
character's `assigned_to` is set to the target user id.  The source's
`if not character_key:` is a truthiness test, so both a missed lookup
(`None`) and a found-but-empty key `""` take the "not found" branch; the
`match` arm for `none` and the `key = ""` guard together model it. -/
def assign_character (pyLower : String → String) (guildId : String)
    (characterName : String) (userId : Nat)
    (sessions : String → Option ScriptSession) :
    (String → Option ScriptSession) × AssignReply :=
  match sessions guildId with
  | none => (sessions, AssignReply.noSession)
  | some session =>
    match findChar pyLower session.characters characterName with
    | none => (sessions, AssignReply.charNotFound)
    | some (key, c) =>
      if key = "" then (sessions, AssignReply.charNotFound)
      else if truthyAssigned c.assigned_to then
        (sessions, AssignReply.alreadyAssigned (c.assigned_to.getD 0))
      else
        (fun g => if g = guildId then
            some { session with
              characters := setAssigned session.characters key (some userId) }
          else sessions g,
         AssignReply.assigned)

/-- `ScriptSessionCog.unassign_character`, with the same
`if not character_key:` truthiness test as `assign_character`. -/
def unassign_character (pyLower : String → String) (guildId : String)
    (characterName : String)
    (sessions : String → Option ScriptSession) :
    (String → Option ScriptSession) × UnassignReply :=
  match sessions guildId with
  | none => (sessions, UnassignReply.noSession)
  | some session =>
    match findChar pyLower session.characters characterName with
    | none => (sessions, UnassignReply.charNotFound)
    | some (key, c) =>
      if key = "" then (sessions, UnassignReply.charNotFound)
      else if truthyAssigned c.assigned_to then
        (fun g => if g = guildId then
            some { session with
              characters := setAssigned session.characters key none }
          else sessions g,
         UnassignReply.unassigned)
      else
        (sessions, UnassignReply.notAssigned)

theorem findChar_key_lower (pyLower : String → String)
    (chars : List (String × Character))
    (name : String) (k : String) (c : Character)
    (h : findChar pyLower chars name = some (k, c)) :
    pyLower k = pyLower name := by
  induction chars with
  | nil => simp [findChar] at h
  | cons kc rest ih =>
    obtain ⟨k0, c0⟩ := kc
    by_cases hk : pyLower k0 = pyLower name
    · simp only [findChar, if_pos hk, Option.some.injEq, Prod.mk.injEq] at h
      rw [← h.1]
      exact hk
    · simp only [findChar, if_neg hk] at h
      exact ih h

theorem findChar_getChar (pyLower : String → String)
    (chars : List (String × Character))
    (name : String) (k : String) (c : Character)
    (h : findChar pyLower chars name = some (k, c)) :
    getChar chars k = some c := by
  induction chars with
  | nil => simp [findChar] at h
  | cons kc rest ih =>
    obtain ⟨k0, c0⟩ := kc
    by_cases hk : pyLower k0 = pyLower name
    · simp only [findChar, if_pos hk, Option.some.injEq, Prod.mk.injEq] at h
      obtain ⟨h1, h2⟩ := h
      subst h1
      subst h2
      simp [getChar]
    · simp only [findChar, if_neg hk] at h
      have hkey := findChar_key_lower pyLower rest name k c h
      have hne : k0 ≠ k := by
        intro he
        subst he
        exact hk hkey
      simp only [getChar, if_neg hne]
      exact ih h

theorem getChar_setAssigned_self (chars : List (String × Character))
    (k : String) (v : Option Nat) (c : Character)
    (h : getChar chars k = some c) :
    getChar (setAssigned chars k v) k =
      some { c with assigned_to := v } := by
  induction chars with
  | nil => simp [getChar] at h
  | cons kc rest ih =>
    obtain ⟨k0, c0⟩ := kc
    by_cases hk : k0 = k
    · subst hk
      simp [getChar] at h
      subst h
      simp [setAssigned, getChar]
    · simp only [getChar, if_neg hk] at h
      simp only [setAssigned, getChar, if_neg hk]
      exact ih h

theorem getChar_setAssigned_other (chars : List (String × Character))
    (k : String) (v : Option Nat) (k' : String) (h : k' ≠ k) :
    getChar (setAssigned chars k v) k' = getChar chars k' := by
  induction chars with
  | nil => simp [setAssigned, getChar]
  | cons kc rest ih =>
    obtain ⟨k0, c0⟩ := kc
    by_cases hk : k0 = k
    · subst hk
      have hne : k0 ≠ k' := fun he => h he.symm
      simp only [setAssigned, getChar, if_neg hne]
      exact ih
    · simp only [setAssigned, getChar, if_neg hk]
      by_cases hk' : k0 = k'
      · rw [if_pos hk', if_pos hk']
      · rw [if_neg hk', if_neg hk']
        exact ih

/-- C8: the assign command mutates the assignment map only when the guild
has a session, the character is found case-insensitively, its key is
truthy (the `if not character_key:` test also rejects a found empty-string
key), and its `assigned_to` is `None`; every failure leaves the whole
table unchanged and yields the matching error reply, and success changes
only the found character's `assigned_to` (to the target user id).  The
unassign command symmetrically fails with the table unchanged when the
character is missing or unassigned, and otherwise resets exactly that
character's `assigned_to` to `None`.  Stated for an arbitrary case-folding
function `pyLower` (Python's Unicode `str.lower()` included); Discord user
ids are nonzero, so the Python truthiness test on `assigned_to` coincides
with the `None` test, which the nonzero hypothesis records. -/
theorem assign_unassign_correct (pyLower : String → String)
    (guildId characterName : String)
    (userId : Nat) (sessions : String → Option ScriptSession) :
    (sessions guildId = none →
      assign_character pyLower guildId characterName userId sessions =
        (sessions, AssignReply.noSession) ∧
      unassign_character pyLower guildId characterName sessions =
        (sessions, UnassignReply.noSession)) ∧
    ∀ session, sessions guildId = some session →
      (findChar pyLower session.characters characterName = none →
        assign_character pyLower guildId characterName userId sessions =
          (sessions, AssignReply.charNotFound) ∧
        unassign_character pyLower guildId characterName sessions =
          (sessions, UnassignReply.charNotFound)) ∧
      (∀ c, findChar pyLower session.characters characterName =
          some ("", c) →
        assign_character pyLower guildId characterName userId sessions =
          (sessions, AssignReply.charNotFound) ∧
        unassign_character pyLower guildId characterName sessions =
          (sessions, UnassignReply.charNotFound)) ∧
      ∀ key c, findChar pyLower session.characters characterName =
          some (key, c) → key ≠ "" →
        (∀ uid, c.assigned_to = some uid → uid ≠ 0 →
          assign_character pyLower guildId characterName userId sessions =
            (sessions, AssignReply.alreadyAssigned uid) ∧
          (unassign_character pyLower guildId characterName sessions).2 =
            UnassignReply.unassigned ∧
          (∀ g, g ≠ guildId →
            (unassign_character pyLower guildId characterName
              sessions).1 g = sessions g) ∧
          ∃ session',
            (unassign_character pyLower guildId characterName
              sessions).1 guildId = some session' ∧
            session'.title = session.title ∧
            getChar session'.characters key =
              some { c with assigned_to := none } ∧
            ∀ k', k' ≠ key →
              getChar session'.characters k' =
                getChar session.characters k') ∧
        (c.assigned_to = none →
          (assign_character pyLower guildId characterName userId
            sessions).2 = AssignReply.assigned ∧
          (∀ g, g ≠ guildId →
            (assign_character pyLower guildId characterName userId
              sessions).1 g = sessions g) ∧
          (∃ session',
            (assign_character pyLower guildId characterName userId
              sessions).1 guildId = some session' ∧
            session'.title = session.title ∧
            getChar session'.characters key =
              some { c with assigned_to := some userId } ∧
            ∀ k', k' ≠ key →
              getChar session'.characters k' =
                getChar session.characters k') ∧
          unassign_character pyLower guildId characterName sessions =
            (sessions, UnassignReply.notAssigned)) := by
  constructor
  · intro h
    constructor
    · simp [assign_character, h]
    · simp [unassign_character, h]
  · intro session hs
    refine ⟨?_, ?_, ?_⟩
    · intro hfind
      constructor
      · simp [assign_character, hs, hfind]
      · simp [unassign_character, hs, hfind]
    · intro c hfind
      constructor
      · simp [assign_character, hs, hfind]
      · simp [unassign_character, hs, hfind]
    · intro key c hfind hkey
      have hget := findChar_getChar pyLower session.characters
        characterName key c hfind
      constructor
      · intro uid huid hne
        have htruthy : truthyAssigned c.assigned_to = true := by
          simp [truthyAssigned, huid, hne]
        have htruthy2 : truthyAssigned (some uid) = true := by
          rw [← huid]; exact htruthy
        refine ⟨?_, ?_, ?_, ?_⟩
        · simp [assign_character, hs, hfind, hkey, htruthy, htruthy2,
            huid]
        · simp [unassign_character, hs, hfind, hkey, htruthy]
        · intro g hg
          simp [unassign_character, hs, hfind, hkey, htruthy, hg]
        · refine ⟨{ session with
              characters := setAssigned session.characters key none }, ?_,
            rfl, ?_, ?_⟩
          · simp [unassign_character, hs, hfind, hkey, htruthy]
          · exact getChar_setAssigned_self session.characters key none c
              hget
          · intro k' hk'
            exact getChar_setAssigned_other session.characters key none k'
              hk'
      · intro hnone
        have htruthy : truthyAssigned c.assigned_to = false := by
          simp [truthyAssigned, hnone]
        refine ⟨?_, ?_, ?_, ?_⟩
        · simp [assign_character, hs, hfind, hkey, htruthy]
        · intro g hg
          simp [assign_character, hs, hfind, hkey, htruthy, hg]
        · refine ⟨{ session with
              characters :=
                setAssigned session.characters key (some userId) }, ?_,
            rfl, ?_, ?_⟩
          · simp [assign_character, hs, hfind, hkey, htruthy]
          · exact getChar_setAssigned_self session.characters key
              (some userId) c hget
          · intro k' hk'
            exact getChar_setAssigned_other session.characters key
              (some userId) k' hk'
        · simp [unassign_character, hs, hfind, hkey, htruthy]

/-- Witness for C8 with an ASCII folding function: assigning the free
character Romeo by the lowercased name succeeds, and unassigning an
assigned Romeo succeeds. -/
theorem assign_unassign_correct_witness :
    (assign_character (fun s => String.mk (s.data.map Char.toLower))
      "1" "romeo" 42
      (fun g => if g = "1" then
        some ⟨"Hamlet", [("Romeo", ⟨"lead", none⟩)]⟩ else none)).2 =
      AssignReply.assigned ∧
    (unassign_character (fun s => String.mk (s.data.map Char.toLower))
      "1" "romeo"
      (fun g => if g = "1" then
        some ⟨"Hamlet", [("Romeo", ⟨"lead", some 42⟩)]⟩ else none)).2 =
      UnassignReply.unassigned := by
  constructor
  · exact ((((assign_unassign_correct
      (fun s => String.mk (s.data.map Char.toLower)) "1" "romeo" 42
      (fun g => if g = "1" then
        some ⟨"Hamlet", [("Romeo", ⟨"lead", none⟩)]⟩ else none)).2
      ⟨"Hamlet", [("Romeo", ⟨"lead", none⟩)]⟩ rfl).2.2
      "Romeo" ⟨"lead", none⟩ (by decide) (by decide)).2 rfl).1
  · exact (((((assign_unassign_correct
      (fun s => String.mk (s.data.map Char.toLower)) "1" "romeo" 0
      (fun g => if g = "1" then
        some ⟨"Hamlet", [("Romeo", ⟨"lead", some 42⟩)]⟩ else none)).2
      ⟨"Hamlet", [("Romeo", ⟨"lead", some 42⟩)]⟩ rfl).2.2
      "Romeo" ⟨"lead", some 42⟩ (by decide) (by decide)).1
      42 rfl (by decide)).2).1

end Script

namespace WordAssoc

/-- Outcome of one outbound HTTP GET in `FunCog.word_association`
(`bot/cogs/fun.py`, `associate` command): either an exception escaping the
call (connection error, JSON decode failure), or a response with a status
code and the decoded list of words. -/
inductive HttpResult
  | exn (message : String)
  | ok (status : Nat) (data : List String)
  deriving DecidableEq

/-- A message the handler sends back to the channel: a plain text reply,
or the embed (carrying the top related words and the optional rhymes
field; the surrounding presentation strings are omitted). -/
inductive Reply
  | text (content : String)
  | embed (relatedWords : List String) (rhymes : Option (List String))
  deriving DecidableEq

/-- The piece of `FunCog` state visible to commands
(`self.current_trivia`); `word_association` never reads or writes it. -/
structure FunCogState where
  current_trivia : List (Nat × String)
  deriving DecidableEq

/-- `FunCog.word_association`: permission gate, primary Datamuse request
(`ml=word`), empty-result check, embed construction from the top 8 words,
secondary rhyme request (`rel_rhy=word`) whose non-200 status is silently
skipped, and the `except` clause converting any raised exception into an
error text.  Message sending itself is assumed not to raise.  Returns the
(unchanged) cog state and the replies sent. -/
def word_association (st : FunCogState) (permission : Bool) (word : String)
    (mainCall : HttpResult) (rhymeCall : HttpResult) :
    FunCogState × List Reply :=
  if permission = false then
    (st, [Reply.text "you do not have permission to use this command."])
  else
    match mainCall with
    | HttpResult.exn e =>
      (st, [Reply.text ("❌ Error fetching word associations: " ++ e)])
    | HttpResult.ok status data =>
      if status = 200 then
        if data.isEmpty then
          (st, [Reply.text ("No related words found for **" ++ word ++ "**.")])
        else
          match rhymeCall with
          | HttpResult.exn e =>
            (st, [Reply.text ("❌ Error fetching word associations: " ++ e)])
          | HttpResult.ok rstatus rdata =>
            if rstatus = 200 then
              if rdata.isEmpty then
                (st, [Reply.embed (data.take 8) none])
              else
                (st, [Reply.embed (data.take 8) (some (rdata.take 5))])
            else
              (st, [Reply.embed (data.take 8) none])
      else
        (st, [Reply.text "❌ Could not connect to the word association service."])

/-- Counterexample to C7 as stated: when the primary request succeeds but
the secondary rhyme request returns a non-200 status, that failing HTTP
call does not produce a "could not fetch" reply — the handler still sends
the embed (without the rhymes field). -/
theorem word_association_rhyme_failure_still_embeds :
    (word_association ⟨[]⟩ true "cat"
      (HttpResult.ok 200 ["feline"]) (HttpResult.ok 500 ["hat"])).2 =
      [Reply.embed ["feline"] none] ∧
    (500 : Nat) ≠ 200 := by
  exact ⟨rfl, by decide⟩

/-- C7 (amended): a failure of the primary HTTP call — non-200 status or
an exception raised anywhere in the handler body — yields exactly one
"could not fetch"-style text reply and no embed, no exception escapes the
handler, and the cog state is unchanged on every path; a non-200 rhyme
response is silently ignored and the embed is sent without the rhymes
field. -/
theorem word_association_error_handling (st : FunCogState) (word : String)
    (mainCall rhymeCall : HttpResult) :
    (∀ e, mainCall = HttpResult.exn e →
      word_association st true word mainCall rhymeCall =
        (st, [Reply.text ("❌ Error fetching word associations: " ++ e)])) ∧
    (∀ status data, mainCall = HttpResult.ok status data → status ≠ 200 →
      word_association st true word mainCall rhymeCall =
        (st, [Reply.text
          "❌ Could not connect to the word association service."])) ∧
    (∀ data e, mainCall = HttpResult.ok 200 data → data ≠ [] →
      rhymeCall = HttpResult.exn e →
      word_association st true word mainCall rhymeCall =
        (st, [Reply.text ("❌ Error fetching word associations: " ++ e)])) ∧
    (∀ data rstatus rdata, mainCall = HttpResult.ok 200 data → data ≠ [] →
      rhymeCall = HttpResult.ok rstatus rdata → rstatus ≠ 200 →
      word_association st true word mainCall rhymeCall =
        (st, [Reply.embed (data.take 8) none])) ∧
    (word_association st true word mainCall rhymeCall).1 = st := by
  refine ⟨?_, ?_, ?_, ?_, ?_⟩
  · intro e he
    subst he
    simp [word_association]
  · intro status data hm hs
    subst hm
    simp [word_association, hs]
  · intro data e hm hd hr
    subst hm
    subst hr
    simp [word_association, hd]
  · intro data rstatus rdata hm hd hr hs
    subst hm
    subst hr
    simp [word_association, hd, hs]
  · cases hp : mainCall with
    | exn e => simp [word_association]
    | ok status data =>
      by_cases hs : status = 200
      · subst hs
        by_cases hd : data.isEmpty
        · simp [word_association, hd]
        · cases rhymeCall with
          | exn e => simp [word_association, hd]
          | ok rstatus rdata =>
            by_cases hrs : rstatus = 200
            · subst hrs
              by_cases hrd : rdata.isEmpty <;>
                simp [word_association, hd, hrd]
            · simp [word_association, hd, hrs]
      · simp [word_association, hs]

/-- Witness for the amended C7 at concrete failing calls. -/
theorem word_association_error_handling_witness :
    word_association ⟨[]⟩ true "cat"
      (HttpResult.ok 404 []) (HttpResult.ok 200 []) =
      (⟨[]⟩, [Reply.text
        "❌ Could not connect to the word association service."]) ∧
    word_association ⟨[]⟩ true "cat"
      (HttpResult.exn "timeout") (HttpResult.ok 200 []) =
      (⟨[]⟩, [Reply.text
        ("❌ Error fetching word associations: " ++ "timeout")]) := by
  constructor
  · exact (word_association_error_handling ⟨[]⟩ "cat"
      (HttpResult.ok 404 []) (HttpResult.ok 200 [])).2.1 404 [] rfl
      (by decide)
  · exact (word_association_error_handling ⟨[]⟩ "cat"
      (HttpResult.exn "timeout") (HttpResult.ok 200 [])).1 "timeout" rfl

end WordAssoc

end DiscordBot
